import Mathlib

/-!
Verification of the thread and execution core of Doppio (src/src/threading.ts):
a shallow embedding of the thread state machine, the park/unpark counter,
bytecode frame resume and exception scheduling, exception unwinding, and the
round-robin scheduler, together with theorems about claimed properties.
-/

namespace DoppioCore

/-! ### Data model: enums (from enums.ts as used in threading.ts) -/

/-- Internal thread status, mirroring enums.ThreadStatus. -/
inductive ThreadStatus
  | NEW
  | RUNNABLE
  | RUNNING
  | BLOCKED
  | UNINTERRUPTABLY_BLOCKED
  | WAITING
  | TIMED_WAITING
  | ASYNC_WAITING
  | PARKED
  | TERMINATED
deriving DecidableEq

/-- JVMTI-level thread state, mirroring enums.JVMTIThreadState as used in
JVMThread.rawSetStatus. -/
inductive JVMTIThreadState
  | ALIVE
  | TERMINATED
  | RUNNABLE
  | BLOCKED_ON_MONITOR_ENTER
  | WAITING_INDEFINITELY
  | WAITING_WITH_TIMEOUT
deriving DecidableEq

/-- The mapping from internal status to the JVMTI threadStatus value written to
the field java/lang/Thread/threadStatus; this is the switch statement inside
JVMThread.rawSetStatus (threading.ts lines 807-841). -/
def jvmtiStatus : ThreadStatus → JVMTIThreadState
  | ThreadStatus.NEW => JVMTIThreadState.ALIVE
  | ThreadStatus.RUNNING => JVMTIThreadState.RUNNABLE
  | ThreadStatus.RUNNABLE => JVMTIThreadState.RUNNABLE
  | ThreadStatus.BLOCKED => JVMTIThreadState.BLOCKED_ON_MONITOR_ENTER
  | ThreadStatus.UNINTERRUPTABLY_BLOCKED => JVMTIThreadState.BLOCKED_ON_MONITOR_ENTER
  | ThreadStatus.WAITING => JVMTIThreadState.WAITING_INDEFINITELY
  | ThreadStatus.ASYNC_WAITING => JVMTIThreadState.WAITING_INDEFINITELY
  | ThreadStatus.PARKED => JVMTIThreadState.WAITING_INDEFINITELY
  | ThreadStatus.TIMED_WAITING => JVMTIThreadState.WAITING_WITH_TIMEOUT
  | ThreadStatus.TERMINATED => JVMTIThreadState.TERMINATED

/-! ### Thread state and setStatus -/

/-- The JVMThread fields relevant to status transitions.  threadStatusField
models the Java-visible field java/lang/Thread/threadStatus of the thread's
jvmThreadObj; monitor models the JVMThread.monitor field (a monitor is
identified abstractly by a number). -/
structure Thread where
  status : ThreadStatus
  threadStatusField : JVMTIThreadState
  immortal : Bool
  monitor : Option Nat
deriving DecidableEq

/-- External effects performed by JVMThread.setStatus.  These calls recurse
into the pool or the thread (tpool.resurrectThread, this.asyncReturn,
tpool.threadRunnable, this.run, this.exit, tpool.threadSuspended); they are
recorded as actions rather than expanded.  In particular the asyncReturn
triggered when leaving PARKED ends in a nested setStatus(RUNNABLE) that is a
no-op because the status is already RUNNABLE at that point. -/
inductive ThreadAction
  | resurrect
  | unparkReturn
  | notifyRunnable
  | runLoop
  | exitThread
  | suspend
deriving DecidableEq

/-- JVMThread.rawSetStatus (threading.ts lines 807-841): store the new status
and write its JVMTI projection to java/lang/Thread/threadStatus. -/
def rawSetStatus (t : Thread) (s : ThreadStatus) : Thread :=
  { t with status := s, threadStatusField := jvmtiStatus s }

/-- JVMThread.setStatus (threading.ts lines 846-903).  Returns the updated
thread together with the list of external actions performed, in order.
Transitions to the same status and RUNNING to RUNNABLE transitions are
ignored; TERMINATED requests on immortal threads are dropped; otherwise
rawSetStatus runs, the monitor field is cleared (and re-set for the blocked or
waiting states from the monitor argument), then the pre-transition actions
keyed on the old status and the post-transition actions keyed on the new
status run. -/
def setStatus (t : Thread) (s : ThreadStatus) (mon : Option Nat) :
    Thread × List ThreadAction :=
  if t.status ≠ s ∧ ¬(t.status = ThreadStatus.RUNNING ∧ s = ThreadStatus.RUNNABLE) then
    if t.immortal = true ∧ s = ThreadStatus.TERMINATED then (t, [])
    else
      let oldStatus := t.status
      let t1 : Thread := { rawSetStatus t s with monitor := none }
      let preActs : List ThreadAction :=
        match oldStatus with
        | ThreadStatus.TERMINATED => [ThreadAction.resurrect]
        | ThreadStatus.PARKED => [ThreadAction.unparkReturn]
        | _ => []
      match s with
      | ThreadStatus.RUNNABLE => (t1, preActs ++ [ThreadAction.notifyRunnable])
      | ThreadStatus.RUNNING => (t1, preActs ++ [ThreadAction.runLoop])
      | ThreadStatus.TERMINATED => (t1, preActs ++ [ThreadAction.exitThread])
      | ThreadStatus.BLOCKED =>
          ({ t1 with monitor := mon }, preActs ++ [ThreadAction.suspend])
      | ThreadStatus.UNINTERRUPTABLY_BLOCKED =>
          ({ t1 with monitor := mon }, preActs ++ [ThreadAction.suspend])
      | ThreadStatus.WAITING =>
          ({ t1 with monitor := mon }, preActs ++ [ThreadAction.suspend])
      | ThreadStatus.TIMED_WAITING =>
          ({ t1 with monitor := mon }, preActs ++ [ThreadAction.suspend])
      | _ => (t1, preActs ++ [ThreadAction.suspend])
  else (t, [])

/-! ### ThreadPool.park / unpark / completelyUnpark -/

/-- Result of a park or unpark call on a single thread: the updated signed
park count for the thread's ref, the updated thread, and the statuses passed
to thread.setStatus (at most one call occurs). -/
structure ParkResult where
  count : Int
  thread : Thread
  calls : List ThreadStatus
deriving DecidableEq

/-- ThreadPool.park (threading.ts lines 532-540): increment the signed park
count (missing entries read as 0, passed here as the count argument); if the
incremented count is positive, set the thread's status to PARKED. -/
def poolPark (c : Int) (t : Thread) : ParkResult :=
  if c + 1 > 0 then
    { count := c + 1, thread := (setStatus t ThreadStatus.PARKED none).1,
      calls := [ThreadStatus.PARKED] }
  else
    { count := c + 1, thread := t, calls := [] }

/-- ThreadPool.unpark (threading.ts lines 542-550): decrement the signed park
count; if the decremented count is at most 0, set the thread's status to
RUNNABLE. -/
def poolUnpark (c : Int) (t : Thread) : ParkResult :=
  if c - 1 ≤ 0 then
    { count := c - 1, thread := (setStatus t ThreadStatus.RUNNABLE none).1,
      calls := [ThreadStatus.RUNNABLE] }
  else
    { count := c - 1, thread := t, calls := [] }

/-- ThreadPool.completelyUnpark (threading.ts lines 552-555). -/
def completelyUnpark (t : Thread) : ParkResult :=
  { count := 0, thread := (setStatus t ThreadStatus.RUNNABLE none).1,
    calls := [ThreadStatus.RUNNABLE] }

/-- A park or unpark call in a sequence of operations on one thread. -/
inductive ParkOp
  | park
  | unpark
deriving DecidableEq

/-- Run a sequence of park and unpark calls on one thread, threading the
signed count and the thread state. -/
def runParkOps (t : Thread) (c : Int) : List ParkOp → Int × Thread
  | [] => (c, t)
  | ParkOp.park :: rest =>
      runParkOps (poolPark c t).thread (poolPark c t).count rest
  | ParkOp.unpark :: rest =>
      runParkOps (poolUnpark c t).thread (poolUnpark c t).count rest

/-- The signed park balance of a sequence: number of parks minus number of
unparks. -/
def netParks : List ParkOp → Int
  | [] => 0
  | ParkOp.park :: rest => netParks rest + 1
  | ParkOp.unpark :: rest => netParks rest - 1

/-! ### Bytecode stack frames -/

/-- Operand-stack and local slots.  jnull models the JavaScript null pushed
for example as the second slot of long and double returns; undefined is
modelled by Option.none at the call sites that check for it. -/
inductive Val
  | jnull
  | num (n : Int)
  | ref (r : Nat)
deriving DecidableEq

/-- The opcodes distinguished by BytecodeStackFrame.scheduleResume (the case
labels of its switch, from enums.OpCode); every other opcode byte is
represented as other with its byte value. -/
inductive OpCode
  | INVOKEINTERFACE
  | INVOKEINTERFACE_FAST
  | INVOKESPECIAL
  | INVOKESTATIC
  | INVOKEVIRTUAL
  | INVOKESTATIC_FAST
  | INVOKENONVIRTUAL_FAST
  | INVOKEVIRTUAL_FAST
  | INVOKEHANDLE
  | INVOKEBASIC
  | LINKTOSPECIAL
  | LINKTOVIRTUAL
  | INVOKEDYNAMIC
  | INVOKEDYNAMIC_FAST
  | other (op : Nat)
deriving DecidableEq

/-- An exception-table entry (attributes.ExceptionHandler) as read by
BytecodeStackFrame.scheduleException. -/
structure ExcHandler where
  startPC : Nat
  endPC : Nat
  handlerPC : Nat
  catchType : String
deriving DecidableEq

/-- The parts of methods.Method consumed by the bytecode frame operations
verified here: the exception-handler table of the code attribute, the
synchronized access flag, and the code bytes viewed as the opcode found at
each pc (getCodeAttribute().getCode().readUInt8). -/
structure Method where
  exceptionHandlers : List ExcHandler
  isSynchronized : Bool
  code : Nat → OpCode

/-- BytecodeStackFrame: pc, locals, operand stack, the return-to-loop signal
and the synchronized-entry flag, plus the method (threading.ts lines 64-84).
Lists are kept in JavaScript array order, so a push appends at the end. -/
structure BytecodeFrame where
  pc : Nat
  locals : List Val
  stack : List Val
  returnToThreadLoop : Bool
  lockedMethodLock : Bool
  method : Method

/-- stack.push(v) when the value is present (rv !== undefined), else no
change. -/
def pushRV : Option Val → List Val → List Val
  | some v, s => s ++ [v]
  | none, s => s

/-- The interface-invoke group of scheduleResume's switch (pc advances by
5). -/
def isInterfaceInvoke : OpCode → Bool
  | OpCode.INVOKEINTERFACE => true
  | OpCode.INVOKEINTERFACE_FAST => true
  | _ => false

/-- The 3-byte invoke group of scheduleResume's switch. -/
def isNormalInvoke : OpCode → Bool
  | OpCode.INVOKESPECIAL => true
  | OpCode.INVOKESTATIC => true
  | OpCode.INVOKEVIRTUAL => true
  | OpCode.INVOKESTATIC_FAST => true
  | OpCode.INVOKENONVIRTUAL_FAST => true
  | OpCode.INVOKEVIRTUAL_FAST => true
  | OpCode.INVOKEHANDLE => true
  | OpCode.INVOKEBASIC => true
  | OpCode.LINKTOSPECIAL => true
  | OpCode.LINKTOVIRTUAL => true
  | OpCode.INVOKEDYNAMIC => true
  | OpCode.INVOKEDYNAMIC_FAST => true
  | _ => false

/-- BytecodeStackFrame.scheduleResume (threading.ts lines 126-160): read the
opcode under the current pc, advance pc past the invoke (5 bytes for the
invokeinterface family, 3 for all other invokes), then push rv and rv2 when
present.  The default branch of the switch is an assertion failure (resuming
from a non-invoke opcode), modelled as none. -/
def scheduleResume (f : BytecodeFrame) (rv rv2 : Option Val) : Option BytecodeFrame :=
  match f.method.code f.pc with
  | OpCode.INVOKEINTERFACE =>
      some { f with pc := f.pc + 5, stack := pushRV rv2 (pushRV rv f.stack) }
  | OpCode.INVOKEINTERFACE_FAST =>
      some { f with pc := f.pc + 5, stack := pushRV rv2 (pushRV rv f.stack) }
  | OpCode.INVOKESPECIAL =>
      some { f with pc := f.pc + 3, stack := pushRV rv2 (pushRV rv f.stack) }
  | OpCode.INVOKESTATIC =>
      some { f with pc := f.pc + 3, stack := pushRV rv2 (pushRV rv f.stack) }
  | OpCode.INVOKEVIRTUAL =>
      some { f with pc := f.pc + 3, stack := pushRV rv2 (pushRV rv f.stack) }
  | OpCode.INVOKESTATIC_FAST =>
      some { f with pc := f.pc + 3, stack := pushRV rv2 (pushRV rv f.stack) }
  | OpCode.INVOKENONVIRTUAL_FAST =>
      some { f with pc := f.pc + 3, stack := pushRV rv2 (pushRV rv f.stack) }
  | OpCode.INVOKEVIRTUAL_FAST =>
      some { f with pc := f.pc + 3, stack := pushRV rv2 (pushRV rv f.stack) }
  | OpCode.INVOKEHANDLE =>
      some { f with pc := f.pc + 3, stack := pushRV rv2 (pushRV rv f.stack) }
  | OpCode.INVOKEBASIC =>
      some { f with pc := f.pc + 3, stack := pushRV rv2 (pushRV rv f.stack) }
  | OpCode.LINKTOSPECIAL =>
      some { f with pc := f.pc + 3, stack := pushRV rv2 (pushRV rv f.stack) }
  | OpCode.LINKTOVIRTUAL =>
      some { f with pc := f.pc + 3, stack := pushRV rv2 (pushRV rv f.stack) }
  | OpCode.INVOKEDYNAMIC =>
      some { f with pc := f.pc + 3, stack := pushRV rv2 (pushRV rv f.stack) }
  | OpCode.INVOKEDYNAMIC_FAST =>
      some { f with pc := f.pc + 3, stack := pushRV rv2 (pushRV rv f.stack) }
  | OpCode.other _ => none

/-! ### Exception scheduling on a bytecode frame -/

/-- Outcome of one scan step over the exception table. -/
inductive ScanOut
  | found (h : ExcHandler)
  | asyncReq (classes : List String)
  | notFound
deriving DecidableEq

/-- The handlerClasses list built on the async path of scheduleException: the
catch types of all entries in the table other than the universal marker
(threading.ts lines 192-197). -/
def handlerClassList (hs : List ExcHandler) : List String :=
  (hs.filter (fun h => h.catchType != "<any>")).map (fun h => h.catchType)

/-- The scan loop of BytecodeStackFrame.scheduleException (threading.ts lines
176-215): walk entries in table order; for an in-range entry, the universal
marker matches immediately; otherwise, if the loader has already resolved the
catch type (resolver), test castability of the exception class; an in-range
entry whose catch type is unresolved aborts the scan and requests
asynchronous resolution of all named catch types of the table. -/
def scanHandlers (resolver : String → Option String) (castable : String → String → Bool)
    (ecls : String) (pc : Nat) (allH : List ExcHandler) : List ExcHandler → ScanOut
  | [] => ScanOut.notFound
  | eh :: rest =>
    if eh.startPC ≤ pc ∧ pc < eh.endPC then
      if eh.catchType = "<any>" then ScanOut.found eh
      else
        match resolver eh.catchType with
        | some rct =>
            if castable ecls rct then ScanOut.found eh
            else scanHandlers resolver castable ecls pc allH rest
        | none => ScanOut.asyncReq (handlerClassList allH)
    else scanHandlers resolver castable ecls pc allH rest

/-- Result of BytecodeStackFrame.scheduleException.  handled carries the
updated frame (operand stack replaced by the exception, pc moved to the
handler) and means the call returned true; asyncResolve carries the class
names passed to resolveClasses, with the thread moved to ASYNC_WAITING, and
also returns true; unhandled means the call returned false, recording whether
the method's monitor was exited (which happens iff the method is
synchronized). -/
inductive SEResult
  | handled (f : BytecodeFrame)
  | asyncResolve (classes : List String)
  | unhandled (exitedMonitor : Bool)

/-- BytecodeStackFrame.scheduleException (threading.ts lines 170-234),
parametrized by the loader's resolved-class lookup (getResolvedClass), the
castability test (ecls.isCastable) and the exception's class name. -/
def scheduleException (resolver : String → Option String)
    (castable : String → String → Bool) (f : BytecodeFrame) (e : Val)
    (ecls : String) : SEResult :=
  match scanHandlers resolver castable ecls f.pc f.method.exceptionHandlers
      f.method.exceptionHandlers with
  | ScanOut.found h => SEResult.handled { f with stack := [e], pc := h.handlerPC }
  | ScanOut.asyncReq cs => SEResult.asyncResolve cs
  | ScanOut.notFound => SEResult.unhandled f.method.isSynchronized

/-- Spec-side matching predicate of claim C5: an entry matches when the pc is
in its range and its catch type is the universal marker or the exception
class is castable to the already-resolved catch type. -/
def specMatches (resolver : String → Option String) (castable : String → String → Bool)
    (ecls : String) (pc : Nat) (eh : ExcHandler) : Bool :=
  decide (eh.startPC ≤ pc) && decide (pc < eh.endPC) &&
    (eh.catchType == "<any>" ||
      (match resolver eh.catchType with
       | some rct => castable ecls rct
       | none => false))

/-- An entry forces the asynchronous resolution path when the pc is in its
range, its catch type is a real class name, and the loader has not resolved
it yet. -/
def needsAsyncRes (resolver : String → Option String) (pc : Nat) (eh : ExcHandler) : Bool :=
  decide (eh.startPC ≤ pc) && decide (pc < eh.endPC) &&
    (eh.catchType != "<any>") && (resolver eh.catchType).isNone

/-- Requests issued by n successive retries of scheduleException on the same
frame, as happens when every asynchronous resolution attempt fails and the
exception is rethrown at the same pc: the frame is not modified on the async
path and carries no record of failed catch types, so each retry starts from
the identical frame. -/
def retryRequests (resolver : String → Option String)
    (castable : String → String → Bool) (f : BytecodeFrame) (e : Val)
    (ecls : String) : Nat → List (List String)
  | 0 => []
  | Nat.succ n =>
    match scheduleException resolver castable f e ecls with
    | SEResult.asyncResolve cs => cs :: retryRequests resolver castable f e ecls n
    | _ => []

/-- A concrete method for the memoization claim: one handler covering pc 8 to
20 with an unresolvable catch type. -/
def c3Method : Method :=
  { exceptionHandlers := [⟨8, 20, 30, "Lfoo;"⟩], isSynchronized := false,
    code := fun _ => OpCode.other 0 }

/-- A concrete frame sitting at pc 12 inside the handler range. -/
def c3Frame : BytecodeFrame :=
  { pc := 12, locals := [], stack := [], returnToThreadLoop := false,
    lockedMethodLock := false, method := c3Method }

/-- A loader on which every resolution attempt fails (getResolvedClass always
returns null). -/
def failResolver : String → Option String := fun _ => none

/-- An exception class name used in concrete instances. -/
def npeName : String := "Ljava/lang/NullPointerException;"

/-- Another exception class name used in concrete instances. -/
def errName : String := "Ljava/lang/Error;"

/-! ### Exception unwinding across the call stack -/

/-- enums.StackFrameType. -/
inductive StackFrameType
  | BYTECODE
  | NATIVE
  | INTERNAL
deriving DecidableEq

/-- The mutable part of an InternalStackFrame touched by scheduleException
(threading.ts lines 338-387): the isException flag and the recorded value. -/
structure InternalFrame where
  isException : Bool
  val : Option Val

/-- A stack frame of one of the three kinds.  A native frame carries no state
relevant to unwinding (its scheduleException always returns false). -/
inductive FrameK
  | bytecode (f : BytecodeFrame)
  | native
  | internal (f : InternalFrame)

/-- The type discriminant of a frame (IStackFrame.type). -/
def FrameK.ftype : FrameK → StackFrameType
  | FrameK.bytecode _ => StackFrameType.BYTECODE
  | FrameK.native => StackFrameType.NATIVE
  | FrameK.internal _ => StackFrameType.INTERNAL

/-- Dispatch of scheduleException over the frame kinds, returning the boolean
result, the updated frame, and the thread (whose status moves to
ASYNC_WAITING when a bytecode frame takes the asynchronous resolution path).
An internal frame records the exception and returns true (threading.ts lines
375-379); a native frame returns false (lines 317-319); a bytecode frame
follows BytecodeStackFrame.scheduleException. -/
def frameScheduleException (resolver : String → Option String)
    (castable : String → String → Bool) (fr : FrameK) (e : Val) (ecls : String)
    (t : Thread) : Bool × FrameK × Thread :=
  match fr with
  | FrameK.internal _ =>
      (true, FrameK.internal { isException := true, val := some e }, t)
  | FrameK.native => (false, fr, t)
  | FrameK.bytecode f =>
      match scheduleException resolver castable f e ecls with
      | SEResult.handled f2 => (true, FrameK.bytecode f2, t)
      | SEResult.asyncResolve _ =>
          (true, FrameK.bytecode f, (setStatus t ThreadStatus.ASYNC_WAITING none).1)
      | SEResult.unhandled _ => (false, FrameK.bytecode f, t)

/-- The unwinding loop of JVMThread.throwException (threading.ts lines
1031-1034): pop frames whose scheduleException returns false, stop at the
first that returns true.  The stack is a list whose head is the top of the
source array. -/
def unwindStack (resolver : String → Option String)
    (castable : String → String → Bool) (e : Val) (ecls : String) :
    List FrameK → Thread → List FrameK × Thread
  | [], t => ([], t)
  | fr :: rest, t =>
      let r := frameScheduleException resolver castable fr e ecls t
      if r.1 = true then (r.2.1 :: rest, r.2.2)
      else unwindStack resolver castable e ecls rest r.2.2

/-- The thread state relevant to throwException: the thread fields and the
call stack (head of the list is the top of the stack). -/
structure ExcThread where
  thread : Thread
  stack : List FrameK

/-- JVMThread.throwException (threading.ts lines 1014-1041) together with
handleUncaughtException (lines 1082-1084).  Returns the new thread state and
the number of dispatchUncaughtException calls performed.  If the stack is
nonempty: a top INTERNAL frame is popped first, setStatus(RUNNABLE) runs,
then the stack unwinds; if the stack (initially or after unwinding) is empty,
the exception is dispatched as uncaught exactly once. -/
def throwExceptionM (resolver : String → Option String)
    (castable : String → String → Bool) (et : ExcThread) (e : Val)
    (ecls : String) : ExcThread × Nat :=
  match et.stack with
  | [] => (et, 1)
  | top :: rest =>
      let stack1 := if top.ftype = StackFrameType.INTERNAL then rest else top :: rest
      let t1 := (setStatus et.thread ThreadStatus.RUNNABLE none).1
      let r := unwindStack resolver castable e ecls stack1 t1
      if r.1.isEmpty then ({ thread := r.2, stack := r.1 }, 1)
      else ({ thread := r.2, stack := r.1 }, 0)

/-- A frame declines an exception when its scheduleException returns false:
always for native frames, never for internal frames, and for bytecode frames
exactly when no handler matches and no resolution is pending. -/
def frameDeclines (resolver : String → Option String)
    (castable : String → String → Bool) (e : Val) (ecls : String) : FrameK → Bool
  | FrameK.native => true
  | FrameK.internal _ => false
  | FrameK.bytecode f =>
      match scheduleException resolver castable f e ecls with
      | SEResult.unhandled _ => true
      | _ => false

/-! ### Thread pool scheduling -/

/-- The JavaScript remainder operator on integers: the result carries the
sign of the dividend.  The scheduler only applies it to nonnegative
dividends. -/
def jsRem (a b : Int) : Int :=
  if 0 ≤ a then a % b else -((-a) % b)

/-- The ThreadPool fields driving scheduling (threading.ts lines 392-404):
the thread list, the running thread (identified by its position in the list,
mirroring the reference equality used in the source), and
runningThreadIndex. -/
structure Pool where
  threads : List Thread
  runningThread : Option Nat
  runningThreadIndex : Int
deriving DecidableEq

/-- The scan position of round-robin iteration i:
(runningThreadIndex + 1 + i) % threads.length (threading.ts line 452). -/
def scanPos (idx : Int) (len : Nat) (i : Nat) : Nat :=
  (jsRem (idx + 1 + (i : Int)) ((len : Nat) : Int)).toNat

/-- The for loop of ThreadPool.scheduleNextThread (threading.ts lines
449-460): iterate i upward while i < threads.length, stop at the first
position (in scan order) holding a RUNNABLE thread.  The second argument is
the number of remaining iterations. -/
def findRunnable (threads : List Thread) (idx : Int) : Nat → Nat → Option Nat
  | _, 0 => none
  | i, Nat.succ r =>
      let iFixed := scanPos idx threads.length i
      match threads.get? iFixed with
      | some th =>
          if th.status = ThreadStatus.RUNNABLE then some iFixed
          else findRunnable threads idx (i + 1) r
      | none => none

/-- ThreadPool.scheduleNextThread (threading.ts lines 444-465), the body run
after the setImmediate deferral: when no thread is running, scan for the
first RUNNABLE thread starting one past runningThreadIndex; on success record
it as the running thread, store its index, and set its status to RUNNING; the
scan is allowed to fail, leaving the pool unchanged. -/
def scheduleNextThread (p : Pool) : Pool :=
  match p.runningThread with
  | some _ => p
  | none =>
      match findRunnable p.threads p.runningThreadIndex 0 p.threads.length with
      | none => p
      | some iFixed =>
          match p.threads.get? iFixed with
          | some th =>
              { threads := p.threads.set iFixed (setStatus th ThreadStatus.RUNNING none).1,
                runningThread := some iFixed,
                runningThreadIndex := (iFixed : Int) }
          | none => p

/-! ### Helper lemmas about setStatus -/

theorem setStatus_parked_status (t : Thread) (mon : Option Nat) :
    ((setStatus t ThreadStatus.PARKED mon).1).status = ThreadStatus.PARKED := by
  unfold setStatus
  by_cases h : t.status ≠ ThreadStatus.PARKED ∧
      ¬(t.status = ThreadStatus.RUNNING ∧ ThreadStatus.PARKED = ThreadStatus.RUNNABLE)
  · rw [if_pos h, if_neg (by simp)]
    rfl
  · rw [if_neg h]
    push_neg at h
    rcases Decidable.em (t.status = ThreadStatus.PARKED) with he | he
    · exact he
    · exact absurd (h (by simpa using he)).2 (by simp)

theorem setStatus_runnable_status (t : Thread) (mon : Option Nat)
    (h : t.status ≠ ThreadStatus.RUNNING) :
    ((setStatus t ThreadStatus.RUNNABLE mon).1).status = ThreadStatus.RUNNABLE := by
  unfold setStatus
  by_cases hc : t.status ≠ ThreadStatus.RUNNABLE ∧
      ¬(t.status = ThreadStatus.RUNNING ∧ ThreadStatus.RUNNABLE = ThreadStatus.RUNNABLE)
  · rw [if_pos hc, if_neg (by simp)]
    rfl
  · rw [if_neg hc]
    push_neg at hc
    rcases Decidable.em (t.status = ThreadStatus.RUNNABLE) with he | he
    · exact he
    · exact absurd (hc (by simpa using he)).1 h

theorem setStatus_running_status (t : Thread) (mon : Option Nat)
    (h : t.status ≠ ThreadStatus.RUNNING) :
    ((setStatus t ThreadStatus.RUNNING mon).1).status = ThreadStatus.RUNNING := by
  unfold setStatus
  rw [if_pos ⟨h, by simp⟩, if_neg (by simp)]
  rfl

/-- Invariant kept by the park balance: the status determined by a signed
count.  A thread with nonpositive balance is RUNNABLE, otherwise PARKED. -/
theorem runParkOps_invariant (ops : List ParkOp) :
    ∀ (c : Int) (t : Thread),
      t.status = (if c ≤ 0 then ThreadStatus.RUNNABLE else ThreadStatus.PARKED) →
      (runParkOps t c ops).1 = c + netParks ops ∧
      (runParkOps t c ops).2.status =
        (if c + netParks ops ≤ 0 then ThreadStatus.RUNNABLE else ThreadStatus.PARKED) := by
  induction ops with
  | nil =>
      intro c t h
      constructor
      · simp [runParkOps, netParks]
      · simpa [runParkOps, netParks] using h
  | cons op rest ih =>
      intro c t h
      have hstat : t.status ≠ ThreadStatus.RUNNING := by
        rcases Decidable.em (c ≤ 0) with hc | hc
        · rw [h, if_pos hc]; simp
        · rw [h, if_neg hc]; simp
      cases op with
      | park =>
          by_cases hc : c + 1 > 0
          · have hp : poolPark c t =
                { count := c + 1, thread := (setStatus t ThreadStatus.PARKED none).1,
                  calls := [ThreadStatus.PARKED] } := by
              unfold poolPark; rw [if_pos hc]
            have hih := ih (c + 1) (setStatus t ThreadStatus.PARKED none).1
              (by rw [setStatus_parked_status, if_neg (by omega)])
            have harith : c + 1 + netParks rest = c + netParks (ParkOp.park :: rest) := by
              simp [netParks]; ring
            simp only [runParkOps, hp]
            rw [harith] at hih
            exact hih
          · have hp : poolPark c t = { count := c + 1, thread := t, calls := [] } := by
              unfold poolPark; rw [if_neg hc]
            have hih := ih (c + 1) t (by rw [h, if_pos (by omega), if_pos (by omega)])
            have harith : c + 1 + netParks rest = c + netParks (ParkOp.park :: rest) := by
              simp [netParks]; ring
            simp only [runParkOps, hp]
            rw [harith] at hih
            exact hih
      | unpark =>
          by_cases hc : c - 1 ≤ 0
          · have hp : poolUnpark c t =
                { count := c - 1, thread := (setStatus t ThreadStatus.RUNNABLE none).1,
                  calls := [ThreadStatus.RUNNABLE] } := by
              unfold poolUnpark; rw [if_pos hc]
            have hih := ih (c - 1) (setStatus t ThreadStatus.RUNNABLE none).1
              (by rw [setStatus_runnable_status t none hstat, if_pos (by omega)])
            have harith : c - 1 + netParks rest = c + netParks (ParkOp.unpark :: rest) := by
              simp [netParks]; ring
            simp only [runParkOps, hp]
            rw [harith] at hih
            exact hih
          · have hp : poolUnpark c t = { count := c - 1, thread := t, calls := [] } := by
              unfold poolUnpark; rw [if_neg hc]
            have hih := ih (c - 1) t (by rw [h, if_neg (by omega), if_neg (by omega)])
            have harith : c - 1 + netParks rest = c + netParks (ParkOp.unpark :: rest) := by
              simp [netParks]; ring
            simp only [runParkOps, hp]
            rw [harith] at hih
            exact hih

/-! ### Claim theorems: park balance and status transitions -/

/-- Claim C1: for every finite sequence of park and unpark calls on a thread
that starts unparked (status RUNNABLE, count 0), the final signed count is the
park balance of the sequence, the final status is RUNNABLE when that balance
is at most 0 and PARKED otherwise (hence the status depends only on the
counts, not on the order of calls), and a park whose resulting count is
nonpositive leaves the thread entirely unchanged (an earlier unpark makes the
park a no-op). -/
theorem c1_park_balance (ops : List ParkOp) (t : Thread)
    (h : t.status = ThreadStatus.RUNNABLE) :
    (runParkOps t 0 ops).1 = netParks ops ∧
    (runParkOps t 0 ops).2.status =
      (if netParks ops ≤ 0 then ThreadStatus.RUNNABLE else ThreadStatus.PARKED) ∧
    (∀ (c : Int) (u : Thread), c + 1 ≤ 0 → poolPark c u = { count := c + 1, thread := u, calls := [] }) := by
  have := runParkOps_invariant ops 0 t (by simpa using h)
  refine ⟨by simpa using this.1, by simpa using this.2, ?_⟩
  intro c u hc
  unfold poolPark
  rw [if_neg (by omega)]

theorem c1_park_balance_witness :
    (⟨ThreadStatus.RUNNABLE, JVMTIThreadState.RUNNABLE, false, none⟩ : Thread).status
        = ThreadStatus.RUNNABLE ∧
    (runParkOps ⟨ThreadStatus.RUNNABLE, JVMTIThreadState.RUNNABLE, false, none⟩ 0
        [ParkOp.unpark, ParkOp.unpark, ParkOp.park]).1 = netParks [ParkOp.unpark, ParkOp.unpark, ParkOp.park] ∧
    (runParkOps ⟨ThreadStatus.RUNNABLE, JVMTIThreadState.RUNNABLE, false, none⟩ 0
        [ParkOp.unpark, ParkOp.unpark, ParkOp.park]).2.status =
      (if netParks [ParkOp.unpark, ParkOp.unpark, ParkOp.park] ≤ 0 then ThreadStatus.RUNNABLE
       else ThreadStatus.PARKED) := by
  have h := c1_park_balance [ParkOp.unpark, ParkOp.unpark, ParkOp.park]
    ⟨ThreadStatus.RUNNABLE, JVMTIThreadState.RUNNABLE, false, none⟩ rfl
  exact ⟨rfl, h.1, h.2.1⟩

/-- Claim C2: every transition actually performed by setStatus leaves the
Java-visible threadStatus field equal to the JVMTI projection of the new
internal status, and that projection maps NEW to ALIVE, RUNNING and RUNNABLE
to RUNNABLE, BLOCKED and UNINTERRUPTABLY_BLOCKED to BLOCKED_ON_MONITOR_ENTER,
WAITING, ASYNC_WAITING and PARKED to WAITING_INDEFINITELY, TIMED_WAITING to
WAITING_WITH_TIMEOUT, and TERMINATED to TERMINATED. -/
theorem c2_threadStatus_projection (t : Thread) (s : ThreadStatus) (mon : Option Nat)
    (hne : t.status ≠ s)
    (hrr : ¬(t.status = ThreadStatus.RUNNING ∧ s = ThreadStatus.RUNNABLE))
    (himm : ¬(t.immortal = true ∧ s = ThreadStatus.TERMINATED)) :
    ((setStatus t s mon).1).status = s ∧
    ((setStatus t s mon).1).threadStatusField = jvmtiStatus ((setStatus t s mon).1).status ∧
    jvmtiStatus ThreadStatus.NEW = JVMTIThreadState.ALIVE ∧
    jvmtiStatus ThreadStatus.RUNNING = JVMTIThreadState.RUNNABLE ∧
    jvmtiStatus ThreadStatus.RUNNABLE = JVMTIThreadState.RUNNABLE ∧
    jvmtiStatus ThreadStatus.BLOCKED = JVMTIThreadState.BLOCKED_ON_MONITOR_ENTER ∧
    jvmtiStatus ThreadStatus.UNINTERRUPTABLY_BLOCKED = JVMTIThreadState.BLOCKED_ON_MONITOR_ENTER ∧
    jvmtiStatus ThreadStatus.WAITING = JVMTIThreadState.WAITING_INDEFINITELY ∧
    jvmtiStatus ThreadStatus.ASYNC_WAITING = JVMTIThreadState.WAITING_INDEFINITELY ∧
    jvmtiStatus ThreadStatus.PARKED = JVMTIThreadState.WAITING_INDEFINITELY ∧
    jvmtiStatus ThreadStatus.TIMED_WAITING = JVMTIThreadState.WAITING_WITH_TIMEOUT ∧
    jvmtiStatus ThreadStatus.TERMINATED = JVMTIThreadState.TERMINATED := by
  have hmain : ((setStatus t s mon).1).status = s ∧
      ((setStatus t s mon).1).threadStatusField = jvmtiStatus s := by
    unfold setStatus
    rw [if_pos ⟨hne, hrr⟩, if_neg himm]
    cases s <;> exact ⟨rfl, rfl⟩
  refine ⟨hmain.1, ?_, rfl, rfl, rfl, rfl, rfl, rfl, rfl, rfl, rfl, rfl⟩
  rw [hmain.1, hmain.2]

theorem c2_threadStatus_projection_witness :
    ((⟨ThreadStatus.NEW, JVMTIThreadState.ALIVE, false, none⟩ : Thread).status
        ≠ ThreadStatus.RUNNABLE) ∧
    ((setStatus ⟨ThreadStatus.NEW, JVMTIThreadState.ALIVE, false, none⟩
        ThreadStatus.RUNNABLE none).1).status = ThreadStatus.RUNNABLE ∧
    ((setStatus ⟨ThreadStatus.NEW, JVMTIThreadState.ALIVE, false, none⟩
        ThreadStatus.RUNNABLE none).1).threadStatusField
      = jvmtiStatus ((setStatus ⟨ThreadStatus.NEW, JVMTIThreadState.ALIVE, false, none⟩
        ThreadStatus.RUNNABLE none).1).status := by
  have h := c2_threadStatus_projection
    ⟨ThreadStatus.NEW, JVMTIThreadState.ALIVE, false, none⟩ ThreadStatus.RUNNABLE none
    (by decide) (by decide) (by decide)
  exact ⟨by decide, h.1, h.2.1⟩

/-- Claim C8: a setStatus(RUNNABLE) request on a RUNNING thread is ignored:
the thread (status, Java-visible field, monitor) is unchanged and no external
actions are performed. -/
theorem c8_running_to_runnable_ignored (t : Thread) (mon : Option Nat)
    (h : t.status = ThreadStatus.RUNNING) :
    setStatus t ThreadStatus.RUNNABLE mon = (t, []) := by
  unfold setStatus
  rw [if_neg]
  intro hc
  exact hc.2 ⟨h, rfl⟩

theorem c8_running_to_runnable_ignored_witness :
    (⟨ThreadStatus.RUNNING, JVMTIThreadState.RUNNABLE, false, none⟩ : Thread).status
        = ThreadStatus.RUNNING ∧
    setStatus ⟨ThreadStatus.RUNNING, JVMTIThreadState.RUNNABLE, false, none⟩
        ThreadStatus.RUNNABLE none
      = (⟨ThreadStatus.RUNNING, JVMTIThreadState.RUNNABLE, false, none⟩, []) :=
  ⟨rfl, c8_running_to_runnable_ignored
    ⟨ThreadStatus.RUNNING, JVMTIThreadState.RUNNABLE, false, none⟩ none rfl⟩

/-- Claim C9: a setStatus(TERMINATED) request on an immortal thread in any
state other than TERMINATED is silently dropped: the thread is unchanged and
no termination actions run. -/
theorem c9_immortal_terminated_noop (t : Thread) (mon : Option Nat)
    (him : t.immortal = true) (hne : t.status ≠ ThreadStatus.TERMINATED) :
    setStatus t ThreadStatus.TERMINATED mon = (t, []) := by
  unfold setStatus
  rw [if_pos ⟨hne, by simp⟩, if_pos ⟨him, rfl⟩]

theorem c9_immortal_terminated_noop_witness :
    (⟨ThreadStatus.ASYNC_WAITING, JVMTIThreadState.WAITING_INDEFINITELY, true, none⟩ : Thread).immortal
        = true ∧
    (⟨ThreadStatus.ASYNC_WAITING, JVMTIThreadState.WAITING_INDEFINITELY, true, none⟩ : Thread).status
        ≠ ThreadStatus.TERMINATED ∧
    setStatus ⟨ThreadStatus.ASYNC_WAITING, JVMTIThreadState.WAITING_INDEFINITELY, true, none⟩
        ThreadStatus.TERMINATED none
      = (⟨ThreadStatus.ASYNC_WAITING, JVMTIThreadState.WAITING_INDEFINITELY, true, none⟩, []) :=
  ⟨rfl, by decide,
    c9_immortal_terminated_noop
      ⟨ThreadStatus.ASYNC_WAITING, JVMTIThreadState.WAITING_INDEFINITELY, true, none⟩ none rfl
      (by decide)⟩

/-- Claim C10: an unpark whose resulting count is at most 0 always calls
setStatus(RUNNABLE), and on a NEW, WAITING or BLOCKED thread this actually
moves the thread to RUNNABLE; by contrast a park whose resulting count is at
most 0 performs no setStatus call and leaves the thread untouched. -/
theorem c10_stray_unpark (c : Int) (t : Thread) :
    (c - 1 ≤ 0 →
      (poolUnpark c t).calls = [ThreadStatus.RUNNABLE] ∧
      ((t.status = ThreadStatus.NEW ∨ t.status = ThreadStatus.WAITING ∨
          t.status = ThreadStatus.BLOCKED) →
        (poolUnpark c t).thread.status = ThreadStatus.RUNNABLE)) ∧
    (c + 1 ≤ 0 →
      (poolPark c t).thread = t ∧ (poolPark c t).calls = []) := by
  constructor
  · intro hc
    have hp : poolUnpark c t =
        { count := c - 1, thread := (setStatus t ThreadStatus.RUNNABLE none).1,
          calls := [ThreadStatus.RUNNABLE] } := by
      unfold poolUnpark; rw [if_pos hc]
    rw [hp]
    refine ⟨rfl, ?_⟩
    intro hst
    apply setStatus_runnable_status
    rcases hst with h | h | h <;> rw [h] <;> simp
  · intro hc
    unfold poolPark
    rw [if_neg (by omega)]
    exact ⟨rfl, rfl⟩

theorem c10_stray_unpark_witness :
    ((0 : Int) - 1 ≤ 0 ∧
      (poolUnpark 0 ⟨ThreadStatus.NEW, JVMTIThreadState.ALIVE, false, none⟩).calls
        = [ThreadStatus.RUNNABLE] ∧
      (poolUnpark 0 ⟨ThreadStatus.NEW, JVMTIThreadState.ALIVE, false, none⟩).thread.status
        = ThreadStatus.RUNNABLE) ∧
    ((-2 : Int) + 1 ≤ 0 ∧
      (poolPark (-2) ⟨ThreadStatus.NEW, JVMTIThreadState.ALIVE, false, none⟩).thread
        = ⟨ThreadStatus.NEW, JVMTIThreadState.ALIVE, false, none⟩) := by
  have h := c10_stray_unpark 0 ⟨ThreadStatus.NEW, JVMTIThreadState.ALIVE, false, none⟩
  have h2 := c10_stray_unpark (-2) ⟨ThreadStatus.NEW, JVMTIThreadState.ALIVE, false, none⟩
  have hu := h.1 (by omega)
  exact ⟨⟨by omega, hu.1, hu.2 (Or.inl rfl)⟩, ⟨by omega, (h2.2 (by omega)).1⟩⟩

/-! ### Claim theorems: bytecode frame resume and exception scheduling -/

/-- Claim C4: resuming a bytecode frame advances pc by 5 when the opcode
under pc is invokeinterface or its fast variant, by 3 for every other invoke
opcode of the switch, pushes rv and then rv2 when they are present, and is an
assertion failure for any non-invoke opcode. -/
theorem c4_schedule_resume (f : BytecodeFrame) (rv rv2 : Option Val) :
    (isInterfaceInvoke (f.method.code f.pc) = true →
       scheduleResume f rv rv2
         = some { f with pc := f.pc + 5, stack := pushRV rv2 (pushRV rv f.stack) }) ∧
    (isNormalInvoke (f.method.code f.pc) = true →
       scheduleResume f rv rv2
         = some { f with pc := f.pc + 3, stack := pushRV rv2 (pushRV rv f.stack) }) ∧
    (∀ n, f.method.code f.pc = OpCode.other n → scheduleResume f rv rv2 = none) := by
  cases hop : f.method.code f.pc <;>
    simp [scheduleResume, hop, isInterfaceInvoke, isNormalInvoke]

theorem c4_schedule_resume_witness :
    isInterfaceInvoke
        ((⟨0, [], [], false, false, ⟨[], false, fun _ => OpCode.INVOKEINTERFACE⟩⟩ :
          BytecodeFrame).method.code 0) = true ∧
    scheduleResume
        (⟨0, [], [], false, false, ⟨[], false, fun _ => OpCode.INVOKEINTERFACE⟩⟩ :
          BytecodeFrame) (some (Val.num 42)) none
      = some (⟨5, [], [Val.num 42], false, false,
          ⟨[], false, fun _ => OpCode.INVOKEINTERFACE⟩⟩ : BytecodeFrame) :=
  ⟨rfl,
    (c4_schedule_resume
      (⟨0, [], [], false, false, ⟨[], false, fun _ => OpCode.INVOKEINTERFACE⟩⟩ :
        BytecodeFrame) (some (Val.num 42)) none).1 rfl⟩

/-- The exception-table scan agrees with a first-match search when no
in-range entry has an unresolved catch type. -/
theorem scanHandlers_eq_find (resolver : String → Option String)
    (castable : String → String → Bool) (ecls : String) (pc : Nat)
    (allH : List ExcHandler) :
    ∀ hs : List ExcHandler, (∀ eh ∈ hs, needsAsyncRes resolver pc eh = false) →
      scanHandlers resolver castable ecls pc allH hs =
        (match hs.find? (specMatches resolver castable ecls pc) with
         | some h => ScanOut.found h
         | none => ScanOut.notFound) := by
  intro hs
  induction hs with
  | nil => intro _; rfl
  | cons eh rest ih =>
      intro hno
      have hnoRest : ∀ x ∈ rest, needsAsyncRes resolver pc x = false := by
        intro x hx
        exact hno x (List.mem_cons_of_mem _ hx)
      have hnoEh := hno eh (List.mem_cons_self _ _)
      by_cases hin : eh.startPC ≤ pc ∧ pc < eh.endPC
      · by_cases hany : eh.catchType = "<any>"
        · have hm : specMatches resolver castable ecls pc eh = true := by
            simp [specMatches, hin.1, hin.2, hany]
          rw [List.find?_cons_of_pos _ hm]
          simp only [scanHandlers]
          rw [if_pos hin, if_pos hany]
        · cases hres : resolver eh.catchType with
          | some rct =>
              cases hcast : castable ecls rct with
              | true =>
                  have hm : specMatches resolver castable ecls pc eh = true := by
                    simp [specMatches, hin.1, hin.2, hres, hcast]
                  rw [List.find?_cons_of_pos _ hm]
                  simp only [scanHandlers]
                  rw [if_pos hin, if_neg hany, hres]
                  simp [hcast]
              | false =>
                  have hm : specMatches resolver castable ecls pc eh = false := by
                    simp [specMatches, hany, hres, hcast]
                  rw [List.find?_cons_of_neg _ (by simp [hm])]
                  simp only [scanHandlers]
                  rw [if_pos hin, if_neg hany, hres]
                  simp only [hcast, if_neg]
                  exact ih hnoRest
          | none =>
              exfalso
              simp [needsAsyncRes, hin.1, hin.2, hany, hres] at hnoEh
      · have hm : specMatches resolver castable ecls pc eh = false := by
          simp only [specMatches]
          rcases Decidable.em (eh.startPC ≤ pc) with h1 | h1
          · rcases Decidable.em (pc < eh.endPC) with h2 | h2
            · exact absurd ⟨h1, h2⟩ hin
            · simp [h2]
          · simp [h1]
        rw [List.find?_cons_of_neg _ (by simp [hm])]
        simp only [scanHandlers]
        rw [if_neg hin]
        exact ih hnoRest

/-- Claim C5: when no catch type of the method needs asynchronous resolution,
scheduleException handles the exception exactly at the first table entry (in
table order) whose range covers the pc and whose catch type is the universal
marker or a resolved class the exception is castable to; it then replaces the
operand stack by the exception alone and moves pc to the handler, returning
true; when no entry matches it returns false, with the method's monitor
exited iff the method is synchronized. -/
theorem c5_handler_selection (resolver : String → Option String)
    (castable : String → String → Bool) (f : BytecodeFrame) (e : Val) (ecls : String)
    (hres : ∀ eh ∈ f.method.exceptionHandlers, needsAsyncRes resolver f.pc eh = false) :
    (∀ h, f.method.exceptionHandlers.find? (specMatches resolver castable ecls f.pc)
          = some h →
       scheduleException resolver castable f e ecls
         = SEResult.handled { f with stack := [e], pc := h.handlerPC }) ∧
    (f.method.exceptionHandlers.find? (specMatches resolver castable ecls f.pc) = none →
       scheduleException resolver castable f e ecls
         = SEResult.unhandled f.method.isSynchronized) := by
  have hs := scanHandlers_eq_find resolver castable ecls f.pc
    f.method.exceptionHandlers f.method.exceptionHandlers hres
  constructor
  · intro h hf
    unfold scheduleException
    rw [hs, hf]
  · intro hf
    unfold scheduleException
    rw [hs, hf]

theorem c5_handler_selection_witness :
    (∀ eh ∈ (⟨12, [], [Val.num 7], false, false,
        ⟨[⟨8, 20, 30, "<any>"⟩], true, fun _ => OpCode.other 0⟩⟩ :
          BytecodeFrame).method.exceptionHandlers,
        needsAsyncRes failResolver 12 eh = false) ∧
    scheduleException failResolver (fun _ _ => false)
        (⟨12, [], [Val.num 7], false, false,
          ⟨[⟨8, 20, 30, "<any>"⟩], true, fun _ => OpCode.other 0⟩⟩ : BytecodeFrame)
        Val.jnull npeName
      = SEResult.handled
          (⟨30, [], [Val.jnull], false, false,
            ⟨[⟨8, 20, 30, "<any>"⟩], true, fun _ => OpCode.other 0⟩⟩ : BytecodeFrame) :=
  ⟨by decide,
    (c5_handler_selection failResolver (fun _ _ => false)
      (⟨12, [], [Val.num 7], false, false,
        ⟨[⟨8, 20, 30, "<any>"⟩], true, fun _ => OpCode.other 0⟩⟩ : BytecodeFrame)
      Val.jnull npeName (by decide)).1
      ⟨8, 20, 30, "<any>"⟩ rfl⟩

/-- Claim C3 (refuting theorem): the bytecode frame keeps no record of catch
types whose resolution already failed.  On the concrete frame whose only
handler names the unresolvable class Lfoo;, every one of n successive
scheduleException calls (as triggered when the exception is rethrown after a
failed resolution) issues the identical resolution request for Lfoo; again,
and the call always takes the asynchronous path with the frame unchanged, so
nothing ever stops the retries. -/
theorem c3_no_memoization (n : Nat) (e : Val) (ecls : String)
    (castable : String → String → Bool) :
    retryRequests failResolver castable c3Frame e ecls n
        = List.replicate n ["Lfoo;"] ∧
    scheduleException failResolver castable c3Frame e ecls
        = SEResult.asyncResolve ["Lfoo;"] := by
  have hsched : scheduleException failResolver castable c3Frame e ecls
      = SEResult.asyncResolve ["Lfoo;"] := rfl
  refine ⟨?_, hsched⟩
  induction n with
  | zero => rfl
  | succ m ih =>
      simp only [retryRequests, hsched]
      rw [List.replicate_succ]
      exact congrArg _ ih

/-! ### Unwinding lemmas and claim C6 -/

/-- A declining frame's scheduleException returns false and changes neither
the frame nor the thread. -/
theorem frameDeclines_step (resolver : String → Option String)
    (castable : String → String → Bool) (e : Val) (ecls : String) (fr : FrameK)
    (t : Thread) (h : frameDeclines resolver castable e ecls fr = true) :
    frameScheduleException resolver castable fr e ecls t = (false, fr, t) := by
  cases fr with
  | native => rfl
  | internal f => simp [frameDeclines] at h
  | bytecode f =>
      cases hs : scheduleException resolver castable f e ecls with
      | handled f2 => simp [frameDeclines, hs] at h
      | asyncResolve cs => simp [frameDeclines, hs] at h
      | unhandled b => simp [frameScheduleException, hs]

/-- A non-declining frame's scheduleException returns true. -/
theorem frameAccepts_step (resolver : String → Option String)
    (castable : String → String → Bool) (e : Val) (ecls : String) (fr : FrameK)
    (t : Thread) (h : frameDeclines resolver castable e ecls fr = false) :
    (frameScheduleException resolver castable fr e ecls t).1 = true := by
  cases fr with
  | native => simp [frameDeclines] at h
  | internal f => rfl
  | bytecode f =>
      cases hs : scheduleException resolver castable f e ecls with
      | handled f2 => simp [frameScheduleException, hs]
      | asyncResolve cs => simp [frameScheduleException, hs]
      | unhandled b => simp [frameDeclines, hs] at h

/-- When every frame declines, unwinding empties the stack and leaves the
thread unchanged. -/
theorem unwindStack_all_decline (resolver : String → Option String)
    (castable : String → String → Bool) (e : Val) (ecls : String) :
    ∀ (s : List FrameK) (t : Thread),
      (∀ fr ∈ s, frameDeclines resolver castable e ecls fr = true) →
      unwindStack resolver castable e ecls s t = ([], t) := by
  intro s
  induction s with
  | nil => intro t _; rfl
  | cons fr rest ih =>
      intro t hall
      have hstep := frameDeclines_step resolver castable e ecls fr t
        (hall fr (List.mem_cons_self _ _))
      simp only [unwindStack, hstep]
      exact ih t fun x hx => hall x (List.mem_cons_of_mem _ hx)

/-- Unwinding pops exactly the declining prefix, stops at the first accepting
frame, and keeps everything beneath it. -/
theorem unwindStack_found (resolver : String → Option String)
    (castable : String → String → Bool) (e : Val) (ecls : String) :
    ∀ (pre : List FrameK) (fr : FrameK) (post : List FrameK) (t : Thread),
      (∀ g ∈ pre, frameDeclines resolver castable e ecls g = true) →
      frameDeclines resolver castable e ecls fr = false →
      unwindStack resolver castable e ecls (pre ++ fr :: post) t =
        ((frameScheduleException resolver castable fr e ecls t).2.1 :: post,
         (frameScheduleException resolver castable fr e ecls t).2.2) := by
  intro pre
  induction pre with
  | nil =>
      intro fr post t _ hfr
      have hacc := frameAccepts_step resolver castable e ecls fr t hfr
      simp only [List.nil_append, unwindStack, hacc, if_pos]
  | cons g pre' ih =>
      intro fr post t hall hfr
      have hstep := frameDeclines_step resolver castable e ecls g t
        (hall g (List.mem_cons_self _ _))
      simp only [List.cons_append, unwindStack, hstep]
      exact ih fr post t (fun x hx => hall x (List.mem_cons_of_mem _ hx)) hfr

/-- Claim C6: for a thread in RUNNING, RUNNABLE or ASYNC_WAITING state with a
nonempty stack, throwException pops the top frame first exactly when it is an
INTERNAL frame, performs setStatus(RUNNABLE), then asks each frame from the
top scheduleException, popping every frame that declines; if every frame
declines the stack empties and exactly one uncaught dispatch happens, and
otherwise unwinding stops at the first accepting frame with no uncaught
dispatch. -/
theorem c6_throw_exception (resolver : String → Option String)
    (castable : String → String → Bool) (et : ExcThread) (e : Val) (ecls : String)
    (hst : et.thread.status = ThreadStatus.RUNNING ∨
           et.thread.status = ThreadStatus.RUNNABLE ∨
           et.thread.status = ThreadStatus.ASYNC_WAITING)
    (top : FrameK) (rest : List FrameK) (hstack : et.stack = top :: rest) :
    ((∀ fr ∈ (if top.ftype = StackFrameType.INTERNAL then rest else top :: rest),
        frameDeclines resolver castable e ecls fr = true) →
      throwExceptionM resolver castable et e ecls
        = ({ thread := (setStatus et.thread ThreadStatus.RUNNABLE none).1, stack := [] }, 1)) ∧
    (∀ (pre : List FrameK) (fr : FrameK) (post : List FrameK),
      (if top.ftype = StackFrameType.INTERNAL then rest else top :: rest)
          = pre ++ fr :: post →
      (∀ g ∈ pre, frameDeclines resolver castable e ecls g = true) →
      frameDeclines resolver castable e ecls fr = false →
      throwExceptionM resolver castable et e ecls
        = ({ thread := (frameScheduleException resolver castable fr e ecls
                (setStatus et.thread ThreadStatus.RUNNABLE none).1).2.2,
             stack := (frameScheduleException resolver castable fr e ecls
                (setStatus et.thread ThreadStatus.RUNNABLE none).1).2.1 :: post }, 0)) := by
  constructor
  · intro hall
    have hu := unwindStack_all_decline resolver castable e ecls
      (if top.ftype = StackFrameType.INTERNAL then rest else top :: rest)
      (setStatus et.thread ThreadStatus.RUNNABLE none).1 hall
    simp only [throwExceptionM, hstack, hu]
    rfl
  · intro pre fr post hsplit hpre hfr
    have hu := unwindStack_found resolver castable e ecls pre fr post
      (setStatus et.thread ThreadStatus.RUNNABLE none).1 hpre hfr
    simp only [throwExceptionM, hstack, hsplit, hu]
    rfl

theorem c6_throw_exception_witness :
    ((⟨⟨ThreadStatus.RUNNING, JVMTIThreadState.RUNNABLE, false, none⟩,
        [FrameK.internal ⟨false, none⟩, FrameK.native]⟩ : ExcThread).thread.status
      = ThreadStatus.RUNNING) ∧
    throwExceptionM failResolver (fun _ _ => false)
        (⟨⟨ThreadStatus.RUNNING, JVMTIThreadState.RUNNABLE, false, none⟩,
          [FrameK.internal ⟨false, none⟩, FrameK.native]⟩ : ExcThread)
        Val.jnull errName
      = ({ thread := (setStatus
              ⟨ThreadStatus.RUNNING, JVMTIThreadState.RUNNABLE, false, none⟩
              ThreadStatus.RUNNABLE none).1, stack := [] }, 1) := by
  refine ⟨rfl, ?_⟩
  have h := (c6_throw_exception failResolver (fun _ _ => false)
    (⟨⟨ThreadStatus.RUNNING, JVMTIThreadState.RUNNABLE, false, none⟩,
      [FrameK.internal ⟨false, none⟩, FrameK.native]⟩ : ExcThread)
    Val.jnull errName (Or.inl rfl)
    (FrameK.internal ⟨false, none⟩) [FrameK.native] rfl).1
  apply h
  intro fr hfr
  have hmem : fr ∈ [FrameK.native] := hfr
  have : fr = FrameK.native := by simpa using hmem
  rw [this]
  rfl

/-! ### Scheduler lemmas and claim C7 -/

/-- Scan positions stay inside the thread list. -/
theorem scanPos_lt (idx : Int) (len : Nat) (i : Nat) (hidx : -1 ≤ idx)
    (hlen : 0 < len) : scanPos idx len i < len := by
  unfold scanPos jsRem
  rw [if_pos (by omega : (0 : Int) ≤ idx + 1 + (i : Int))]
  have h1 : 0 ≤ (idx + 1 + (i : Int)) % ((len : Nat) : Int) :=
    Int.emod_nonneg _ (by omega)
  have h2 : (idx + 1 + (i : Int)) % ((len : Nat) : Int) < ((len : Nat) : Int) :=
    Int.emod_lt_of_pos _ (by omega)
  omega

/-- Correctness of the round-robin scan: a successful scan returns the first
position in scan order holding a RUNNABLE thread, and a failed scan means no
scanned position holds one. -/
theorem findRunnable_spec (threads : List Thread) (idx : Int)
    (hidx : -1 ≤ idx) (hlen : 0 < threads.length) :
    ∀ (r i : Nat),
      (match findRunnable threads idx i r with
       | some p =>
           ∃ k, k < r ∧ p = scanPos idx threads.length (i + k) ∧
             (∃ th, threads.get? p = some th ∧ th.status = ThreadStatus.RUNNABLE) ∧
             (∀ j, j < k → ∀ u, threads.get? (scanPos idx threads.length (i + j)) = some u →
                u.status ≠ ThreadStatus.RUNNABLE)
       | none =>
           ∀ k, k < r → ∀ u, threads.get? (scanPos idx threads.length (i + k)) = some u →
             u.status ≠ ThreadStatus.RUNNABLE) := by
  intro r
  induction r with
  | zero =>
      intro i
      simp only [findRunnable]
      intro k hk
      omega
  | succ r ih =>
      intro i
      have hlt := scanPos_lt idx threads.length i hidx hlen
      have hth : threads.get? (scanPos idx threads.length i)
          = some (threads.get ⟨scanPos idx threads.length i, hlt⟩) :=
        List.get?_eq_get hlt
      by_cases hr : (threads.get ⟨scanPos idx threads.length i, hlt⟩).status
          = ThreadStatus.RUNNABLE
      · have hfind : findRunnable threads idx i (r + 1)
            = some (scanPos idx threads.length i) := by
          simp only [findRunnable, hth]
          rw [if_pos hr]
        rw [hfind]
        refine ⟨0, by omega, by rw [Nat.add_zero], ⟨_, hth, hr⟩, ?_⟩
        intro j hj
        omega
      · have hfind : findRunnable threads idx i (r + 1)
            = findRunnable threads idx (i + 1) r := by
          simp only [findRunnable, hth]
          rw [if_neg hr]
        rw [hfind]
        have hspec := ih (i + 1)
        cases hfr : findRunnable threads idx (i + 1) r with
        | some p =>
            rw [hfr] at hspec
            obtain ⟨k, hk, hp, hex, hall⟩ := hspec
            refine ⟨k + 1, by omega, by rw [show i + (k + 1) = i + 1 + k by omega]; exact hp,
              hex, ?_⟩
            intro j hj u hu
            cases j with
            | zero =>
                rw [Nat.add_zero] at hu
                rw [hth] at hu
                injection hu with hu
                rw [← hu]
                exact hr
            | succ j' =>
                have := hall j' (by omega)
                rw [show i + (j' + 1) = i + 1 + j' by omega] at hu
                exact this u hu
        | none =>
            rw [hfr] at hspec
            intro k hk u hu
            cases k with
            | zero =>
                rw [Nat.add_zero] at hu
                rw [hth] at hu
                injection hu with hu
                rw [← hu]
                exact hr
            | succ k' =>
                have := hspec k' (by omega)
                rw [show i + (k' + 1) = i + 1 + k' by omega] at hu
                exact this u hu

/-- Claim C7: with no running thread, scheduleNextThread picks the first
thread in round-robin order (scanning from one past runningThreadIndex,
modulo the list length) whose status is RUNNABLE, records it as the running
thread with its index, and transitions it to RUNNING; when no thread is
RUNNABLE the pool is unchanged. -/
theorem c7_schedule_next_thread (p : Pool) (hrun : p.runningThread = none)
    (hidx : -1 ≤ p.runningThreadIndex) :
    ((∀ t ∈ p.threads, t.status ≠ ThreadStatus.RUNNABLE) → scheduleNextThread p = p) ∧
    (∀ i, findRunnable p.threads p.runningThreadIndex 0 p.threads.length = some i →
       ∃ th, p.threads.get? i = some th ∧ th.status = ThreadStatus.RUNNABLE ∧
         (∃ k, k < p.threads.length ∧
            i = scanPos p.runningThreadIndex p.threads.length k ∧
            ∀ j, j < k →
              ∀ u, p.threads.get? (scanPos p.runningThreadIndex p.threads.length j) = some u →
                u.status ≠ ThreadStatus.RUNNABLE) ∧
         scheduleNextThread p
           = { threads := p.threads.set i (setStatus th ThreadStatus.RUNNING none).1,
               runningThread := some i,
               runningThreadIndex := (i : Int) } ∧
         ((setStatus th ThreadStatus.RUNNING none).1).status = ThreadStatus.RUNNING) := by
  constructor
  · intro hnone
    by_cases hlen : 0 < p.threads.length
    · cases hfr : findRunnable p.threads p.runningThreadIndex 0 p.threads.length with
      | none => simp [scheduleNextThread, hrun, hfr]
      | some i =>
          exfalso
          have hspec := findRunnable_spec p.threads p.runningThreadIndex hidx hlen
            p.threads.length 0
          rw [hfr] at hspec
          obtain ⟨k, _, _, ⟨th, hget, hst⟩, _⟩ := hspec
          exact hnone th (List.get?_mem hget) hst
    · have hz : p.threads.length = 0 := by omega
      have hfr : findRunnable p.threads p.runningThreadIndex 0 p.threads.length = none := by
        rw [hz]
        rfl
      simp [scheduleNextThread, hrun, hfr]
  · intro i hfr
    have hlen : 0 < p.threads.length := by
      by_contra hc
      have hz : p.threads.length = 0 := by omega
      rw [hz] at hfr
      simp [findRunnable] at hfr
    have hspec := findRunnable_spec p.threads p.runningThreadIndex hidx hlen
      p.threads.length 0
    rw [hfr] at hspec
    obtain ⟨k, hk, hp, ⟨th, hget, hst⟩, hall⟩ := hspec
    refine ⟨th, hget, hst, ⟨k, hk, by simpa using hp, ?_⟩, ?_, ?_⟩
    · intro j hj u hu
      have := hall j hj
      rw [show (0 : Nat) + j = j by omega] at this
      exact this u hu
    · simp only [scheduleNextThread, hrun, hfr, hget]
    · apply setStatus_running_status
      rw [hst]
      simp

theorem c7_schedule_next_thread_witness :
    ((⟨[⟨ThreadStatus.RUNNABLE, JVMTIThreadState.RUNNABLE, false, none⟩], none, -1⟩ :
        Pool).runningThread = none) ∧
    (-1 ≤ (⟨[⟨ThreadStatus.RUNNABLE, JVMTIThreadState.RUNNABLE, false, none⟩], none, -1⟩ :
        Pool).runningThreadIndex) ∧
    scheduleNextThread
        (⟨[⟨ThreadStatus.RUNNABLE, JVMTIThreadState.RUNNABLE, false, none⟩], none, -1⟩ : Pool)
      = (⟨[(setStatus ⟨ThreadStatus.RUNNABLE, JVMTIThreadState.RUNNABLE, false, none⟩
            ThreadStatus.RUNNING none).1], some 0, 0⟩ : Pool) := by
  refine ⟨rfl, by decide, ?_⟩
  have h := (c7_schedule_next_thread
    (⟨[⟨ThreadStatus.RUNNABLE, JVMTIThreadState.RUNNABLE, false, none⟩], none, -1⟩ : Pool)
    rfl (by decide)).2 0 (by decide)
  obtain ⟨th, hget, hst, hscan, heq, hrun2⟩ := h
  have hth : th = ⟨ThreadStatus.RUNNABLE, JVMTIThreadState.RUNNABLE, false, none⟩ := by
    have hsome : (some th : Option Thread)
        = some ⟨ThreadStatus.RUNNABLE, JVMTIThreadState.RUNNABLE, false, none⟩ := by
      rw [← hget]
      rfl
    exact Option.some.inj hsome
  rw [heq, hth]
  rfl

end DoppioCore
